import Mathlib

/-!
Verification of the `formula-evaluator` engine (lexer, precedence-climbing
parser, tree-walking evaluator, dependency collector) against its
natural-language specification.

The definitions below are a shallow embedding of the TypeScript sources
(`src/index.ts` and `src/functions.ts`): the lexer's rule list, the parser's
`parseExpression` / `parseToken` pair, the evaluator's `run` with its `if` /
`iferr` special forms, the merged-context lookup (including the JavaScript
prototype chain of the merged context object), the case-lowering function
registry, and `getDependencies`.

Modelling conventions:
* JavaScript numbers (IEEE-754 binary64) are idealized as exact rationals
  `ℚ`, extended with explicit `nan` / infinity values for the coercion and
  division corner cases.  Every numeric computation appearing in a theorem
  below is exact in binary64, so the idealization agrees with the source on
  all inputs the theorems touch.
* JavaScript exceptions are modelled with `Except String`, carrying the
  exact `Error` message string the source throws.
* The parser and lexer loops are written with an explicit fuel parameter
  (the source uses unbounded `while` loops over a cursor); the entry points
  supply fuel that is larger than any possible number of loop steps for the
  given token/character count, and all theorems are stated about the entry
  points themselves.
-/

set_option allowUnsafeReducibility true

attribute [semireducible] Rat.add Rat.mul Rat.sub Rat.inv

namespace FormulaEval

/-! ## Tokens (source: `TOKEN_TYPES`, `Token` in src/index.ts) -/

/-- The six token kinds of `TOKEN_TYPES`. -/
inductive TokenType where
  | number
  | string
  | identifier
  | operator
  | delimiter
  | whitespace
deriving DecidableEq, Repr

/-- A lexer token: `{ type, value, start, end }`.  For string tokens `value`
is the content between the quotes (capture group 1); for all others it is the
matched text.  `start`/`endPos` are the half-open source offsets (the source
field is named `end`, a Lean keyword). -/
structure Token where
  type : TokenType
  value : String
  start : Nat
  endPos : Nat
deriving DecidableEq, Repr

/-! ## Character classes used by the lexing regexes -/

/-- JavaScript `\d`. -/
def isDigitChar (c : Char) : Bool := c.isDigit

/-- JavaScript `[a-zA-Z]`. -/
def isAsciiLetter (c : Char) : Bool := c.isAlpha

/-- JavaScript `[\w\d]` = `[A-Za-z0-9_]` (the `\d` is redundant in the
source's identifier rule). -/
def isWordChar (c : Char) : Bool := c.isAlpha || c.isDigit || c = '_'

/-- JavaScript `\s`: the WhiteSpace and LineTerminator code points. -/
def isJsWhitespace (c : Char) : Bool :=
  let n := c.toNat
  n = 32 || n = 9 || n = 10 || n = 11 || n = 12 || n = 13 ||
  n = 0xA0 || n = 0x1680 || (0x2000 ≤ n && n ≤ 0x200A) ||
  n = 0x2028 || n = 0x2029 || n = 0x202F || n = 0x205F || n = 0x3000 ||
  n = 0xFEFF

/-! ## The token rules (source: `TOKEN_RULES`)

Each JavaScript rule is a global regex executed with `lastIndex = pos` and
accepted only when `match.index === pos`; this is exactly an anchored match
at the current position, which each matcher below computes directly.  A
matcher returns the token's `value` together with the total number of
characters consumed. -/

/-- Rule `STRING: /"([^"]*)"/` anchored at the cursor: an opening quote, the
longest run of non-quote characters, and a closing quote.  With no closing
quote anywhere the regex cannot match at the cursor (nor can any match start
at the cursor), so the rule fails. -/
def matchTokString : List Char → Option (String × Nat)
  | [] => none
  | c :: rest =>
      if c = '\"' then
        let content := rest.takeWhile (fun d => d ≠ '\"')
        if content.length < rest.length then
          some (String.mk content, content.length + 2)
        else none
      else none

/-- The `.digits` continuation of the Number rule: when the cursor after
the integer digits sits on a dot, the digit run after the dot (possibly
empty), else nothing. -/
def numFracPart (afterInt : List Char) : List Char :=
  if afterInt.headD ' ' = '.' then afterInt.tail.takeWhile isDigitChar else []

/-- Rule `NUMBER: /\d*\.?\d+/` anchored at the cursor.  Greedy backtracking
gives: an optional integer-digit run, then `.` followed by a mandatory
fraction-digit run when present; if the dot is not followed by a digit the
regex backtracks and matches the integer digits alone (so `5.` lexes as `5`
leaving the dot unconsumed, while `.5` matches as a whole). -/
def matchTokNumber (cs : List Char) : Option (String × Nat) :=
  let intDigits := cs.takeWhile isDigitChar
  let afterInt := cs.drop intDigits.length
  let fracDigits : List Char := numFracPart afterInt
  if fracDigits ≠ [] then
    let text := intDigits ++ '.' :: fracDigits
    some (String.mk text, text.length)
  else if intDigits ≠ [] then
    some (String.mk intDigits, intDigits.length)
  else none

/-- Rule `IDENTIFIER: /[a-zA-Z][\w\d]*/` anchored at the cursor. -/
def matchTokIdentifier : List Char → Option (String × Nat)
  | c :: rest =>
      if isAsciiLetter c then
        let text := c :: rest.takeWhile isWordChar
        some (String.mk text, text.length)
      else none
  | [] => none

/-- The single-character alternatives of the operator rule's character class
`[+=\-><&|/*!/]`. -/
def singleOpChars : List Char := ['+', '=', '-', '>', '<', '&', '|', '/', '*', '!']

/-- Rule `OPERATOR: /!=|>=|<=|[+=\-><&|/*!/]/` anchored at the cursor: the
two-character alternatives are tried before the single-character class. -/
def matchTokOperator : List Char → Option (String × Nat)
  | [] => none
  | c :: rest =>
      if c = '!' ∧ rest.headD ' ' = '=' then some ("!=", 2)
      else if c = '>' ∧ rest.headD ' ' = '=' then some (">=", 2)
      else if c = '<' ∧ rest.headD ' ' = '=' then some ("<=", 2)
      else if c ∈ singleOpChars then some (String.mk [c], 1)
      else none

/-- Rule `DELIMITER: /[(),]/` anchored at the cursor. -/
def matchTokDelimiter : List Char → Option (String × Nat)
  | c :: _ =>
      if c = '(' || c = ')' || c = ',' then some (String.mk [c], 1) else none
  | [] => none

/-- Rule `WHITESPACE: /\s+/` anchored at the cursor. -/
def matchTokWhitespace (cs : List Char) : Option (String × Nat) :=
  let ws := cs.takeWhile isJsWhitespace
  if ws ≠ [] then some (String.mk ws, ws.length) else none

/-- Try the six rules in the source's fixed priority order and take the first
that matches at the cursor. -/
def firstRuleMatch (cs : List Char) : Option (TokenType × String × Nat) :=
  match matchTokString cs with
  | some (v, n) => some (.string, v, n)
  | none =>
  match matchTokNumber cs with
  | some (v, n) => some (.number, v, n)
  | none =>
  match matchTokIdentifier cs with
  | some (v, n) => some (.identifier, v, n)
  | none =>
  match matchTokOperator cs with
  | some (v, n) => some (.operator, v, n)
  | none =>
  match matchTokDelimiter cs with
  | some (v, n) => some (.delimiter, v, n)
  | none =>
  match matchTokWhitespace cs with
  | some (v, n) => some (.whitespace, v, n)
  | none => none

/-- The scanning loop of `tokenize`: at each position take the first matching
rule, emit a token unless the rule is whitespace, and advance by the matched
length; if no rule matches, throw `Unexpected character at {pos}: {char}`.
Every rule match consumes at least one character, so fuel `length + 1`
(supplied by `tokenize`) can never run out. -/
def tokenizeAux : Nat → Nat → List Char → Except String (List Token)
  | 0, _, _ => .error "fuel exhausted"
  | _ + 1, _, [] => .ok []
  | fuel + 1, pos, c :: cs =>
      match firstRuleMatch (c :: cs) with
      | some (ty, value, len) =>
          let rest := (c :: cs).drop len
          if ty = TokenType.whitespace then
            tokenizeAux fuel (pos + len) rest
          else do
            let ts ← tokenizeAux fuel (pos + len) rest
            .ok ({ type := ty, value := value, start := pos, endPos := pos + len } :: ts)
      | none => .error ("Unexpected character at " ++ toString pos ++ ": " ++ toString c)

/-- `tokenize(str)` from src/index.ts. -/
def tokenize (s : String) : Except String (List Token) :=
  tokenizeAux (s.toList.length + 1) 0 s.toList

/-! ## AST (source: `ASTNode` in src/index.ts)

The source's AST node is the union
`FunctionNode | VariableNode | number | string | boolean | null`; the Lean
embedding boxes the literal cases as constructors.  Numbers are the exact
rationals produced by `parseFloat` on number-token text (see the header note
on the `ℚ` idealization). -/
inductive AST where
  | num (q : ℚ)
  | str (s : String)
  | bool (b : Bool)
  | null
  | var (name : String)
  | call (name : String) (args : List AST)

/-- Value of a digit run, most significant first. -/
def digitsVal (cs : List Char) : Nat :=
  cs.foldl (fun acc c => 10 * acc + (c.toNat - '0'.toNat)) 0

/-- JavaScript `parseFloat` restricted to the texts the Number token rule can
produce (`\d*\.?\d+`), idealized to an exact rational: integer part plus
fraction digits scaled by a power of ten. -/
def parseFloatQ (s : String) : ℚ :=
  let cs := s.toList
  let intDigits := cs.takeWhile isDigitChar
  let rest := cs.drop intDigits.length
  let fracDigits : List Char :=
    match rest with
    | '.' :: fs => fs.takeWhile isDigitChar
    | _ => []
  mkRat (digitsVal intDigits) 1 + mkRat (digitsVal fracDigits) (10 ^ fracDigits.length)

/-! ## Operator tables (source: `OP_MAP`, `OP_PRECEDENCE`) -/

/-- `OP_MAP`: operator text to reserved internal call name. -/
def OP_MAP (op : String) : Option String :=
  if op = "+" then some "__add"
  else if op = "-" then some "__sub"
  else if op = "=" then some "__eq"
  else if op = "!=" then some "__neq"
  else if op = ">" then some "__gt"
  else if op = ">=" then some "__gte"
  else if op = "<" then some "__lt"
  else if op = "<=" then some "__lte"
  else if op = "*" then some "__mul"
  else if op = "/" then some "__div"
  else if op = "&" then some "__and"
  else if op = "|" then some "__or"
  else none

/-- `OP_PRECEDENCE`: binding strength of each binary operator. -/
def OP_PRECEDENCE (op : String) : Option Nat :=
  if op = "|" then some 1
  else if op = "&" then some 2
  else if op = "=" then some 3
  else if op = "!=" then some 3
  else if op = ">" then some 4
  else if op = ">=" then some 4
  else if op = "<" then some 4
  else if op = "<=" then some 4
  else if op = "+" then some 5
  else if op = "-" then some 5
  else if op = "*" then some 6
  else if op = "/" then some 6
  else none

/-- JavaScript `String.prototype.toLowerCase` on the ASCII identifiers this
engine produces (`Char.toLower` lower-cases exactly the ASCII range). -/
def jsToLower (s : String) : String := String.mk (s.toList.map Char.toLower)

/-! ## Parser (source: `parse` with inner `parseExpression` / `parseToken`)

The source walks a mutable cursor `pos` over the token array; the embedding
passes the remaining-token suffix explicitly and returns it alongside the
parsed node.  The mutual recursion is paid for with a fuel parameter; `parse`
supplies more fuel than the call tree of any input can consume (each unit of
call depth either consumes a token or is one of the constantly-bounded
non-consuming steps), and every theorem below is about `parse` itself. -/
mutual

/-- `parseExpression(minPrec)`: parse one atom, then fold binary operators of
precedence at least `minPrec` (the precedence-climbing loop is `parseOps`). -/
def parseExpr (fuel : Nat) (minPrec : Nat) (ts : List Token) :
    Except String (AST × List Token) :=
  match fuel with
  | 0 => .error "fuel exhausted"
  | fuel + 1 => do
      let (node, rest) ← parseTok fuel ts
      parseOps fuel minPrec node rest

/-- The `while` loop inside `parseExpression`: while the next token is an
operator with defined precedence `≥ minPrec`, consume it, parse the
right-hand side with minimum precedence one higher, and fold the accumulated
node into `Call(OP_MAP[op], [node, right])`. -/
def parseOps (fuel : Nat) (minPrec : Nat) (node : AST) (ts : List Token) :
    Except String (AST × List Token) :=
  match fuel with
  | 0 => .error "fuel exhausted"
  | fuel + 1 =>
      match ts with
      | [] => .ok (node, [])
      | t :: rest =>
          if t.type = TokenType.operator then
            match OP_PRECEDENCE t.value with
            | none => .ok (node, t :: rest)
            | some prec =>
                if minPrec ≤ prec then do
                  let (right, rest') ← parseExpr fuel (prec + 1) rest
                  parseOps fuel minPrec (.call ((OP_MAP t.value).getD "") [node, right]) rest'
                else .ok (node, t :: rest)
          else .ok (node, t :: rest)

/-- `parseToken()`: consume one token and produce an atom.  The source's
checks run in this order: end of input → `null`; prefix `!` / `-`; number
literal; the literal texts `true` / `false` (checked before the string-token
test, so a string token whose content is exactly `true` also becomes a
boolean); string literal; identifier (a call when immediately followed by
`(`, lower-casing the name, otherwise a variable); parenthesized group; any
other token → `null`. -/
def parseTok (fuel : Nat) (ts : List Token) : Except String (AST × List Token) :=
  match fuel with
  | 0 => .error "fuel exhausted"
  | fuel + 1 =>
      match ts with
      | [] => .ok (.null, [])
      | t :: rest =>
          if t.type = TokenType.operator ∧ t.value = "!" then do
            let (operand, rest') ← parseTok fuel rest
            .ok (.call "__not" [operand], rest')
          else if t.type = TokenType.operator ∧ t.value = "-" then do
            let (operand, rest') ← parseTok fuel rest
            .ok (.call "__neg" [operand], rest')
          else if t.type = TokenType.number then
            .ok (.num (parseFloatQ t.value), rest)
          else if t.value = "true" then
            .ok (.bool true, rest)
          else if t.value = "false" then
            .ok (.bool false, rest)
          else if t.type = TokenType.string then
            .ok (.str t.value, rest)
          else if t.type = TokenType.identifier then
            match rest with
            | next :: rest' =>
                if next.value = "(" then do
                  let (args, rest'') ← parseArgs fuel rest'
                  match rest'' with
                  | close :: rest''' =>
                      if close.value = ")" then
                        .ok (.call (jsToLower t.value) args, rest''')
                      else .error "Missing closing parenthesis"
                  | [] => .error "Missing closing parenthesis"
                else .ok (.var t.value, rest)
            | [] => .ok (.var t.value, rest)
          else if t.value = "(" then do
            let (node, rest') ← parseExpr fuel 0 rest
            match rest' with
            | close :: rest'' =>
                if close.value = ")" then .ok (node, rest'')
                else .error "Missing closing parenthesis"
            | [] => .error "Missing closing parenthesis"
          else
            .ok (.null, rest)

/-- The argument loop of the call case in `parseToken`: while the cursor is
not at end of input and not at `)`, parse one full expression (precedence
floor 0) and skip a following comma if present.  The check for the closing
`)` itself is done by the caller, mirroring the source. -/
def parseArgs (fuel : Nat) (ts : List Token) : Except String (List AST × List Token) :=
  match fuel with
  | 0 => .error "fuel exhausted"
  | fuel + 1 =>
      match ts with
      | [] => .ok ([], [])
      | t :: _ =>
          if t.value = ")" then .ok ([], ts)
          else do
            let (arg, rest) ← parseExpr fuel 0 ts
            let rest' :=
              match rest with
              | r :: rs => if r.value = "," then rs else rest
              | [] => []
            let (args, rest'') ← parseArgs fuel rest'
            .ok (arg :: args, rest'')

end

/-- Fuel supplied by the `parse` entry point, proportional to the token
count.  Every theorem below either computes through it on a concrete input
or carries an explicit fuel bound discharged against it, so no stated
result depends on fuel exhaustion being unreachable in general. -/
def parseFuel (ts : List Token) : Nat := 4 * ts.length + 4

/-- `parse(tokens)` from src/index.ts: parse one full expression, then throw
`Unexpected token: {text}` if any token is left unconsumed. -/
def parse (ts : List Token) : Except String AST := do
  let (result, rest) ← parseExpr (parseFuel ts) 0 ts
  match rest with
  | [] => .ok result
  | t :: _ => .error ("Unexpected token: " ++ t.value)

/-- Compose the lexer and parser on a formula string (the front half of
`evaluate` / `getDependencies`). -/
def parseFormula (s : String) : Except String AST := do
  let ts ← tokenize s
  parse ts

/-! ## Runtime values

The evaluator is dynamically typed; a runtime value is a number (the `ℚ`
idealization plus JavaScript's `NaN` / `±Infinity` specials), a string, a
boolean, `null`, `undefined` (produced by out-of-range argument access), or
a host function object (produced only by context lookups that land on
`Object.prototype`, see `ctxLookup`). -/
inductive Value where
  | num (q : ℚ)
  | nan
  | inf
  | neginf
  | str (s : String)
  | bool (b : Bool)
  | null
  | undefined
  | hostFn (name : String)
deriving DecidableEq, Repr

/-- JavaScript truthiness: `false`, `±0`, `NaN`, `""`, `null`, `undefined`
are falsy; every other value (including any function object) is truthy. -/
def truthy : Value → Bool
  | .num q => q != 0
  | .nan => false
  | .inf => true
  | .neginf => true
  | .str s => s != ""
  | .bool b => b
  | .null => false
  | .undefined => false
  | .hostFn _ => true

/-- Decimal rendering of the `ℚ` idealization of a number.  JavaScript's
binary64 shortest-roundtrip formatting is outside the rational model; no
claim exercises number-to-string conversion, which only feeds the
string-concatenation branch of `+`. -/
def qToString (q : ℚ) : String :=
  if q.den = 1 then toString q.num else toString q.num ++ "/" ++ toString q.den

/-- JavaScript `String(v)` on the primitive values of this engine. -/
def jsToString : Value → String
  | .num q => qToString q
  | .nan => "NaN"
  | .inf => "Infinity"
  | .neginf => "-Infinity"
  | .str s => s
  | .bool b => if b then "true" else "false"
  | .null => "null"
  | .undefined => "undefined"
  | .hostFn name => "function " ++ name ++ "() { [native code] }"

/-- JavaScript `Number(string)`: trim whitespace; empty means `0`; accept
signed `Infinity` and signed decimal literals (digits, optional dot,
digits); anything else is `NaN`.  (JavaScript additionally accepts exponent
and hex/octal/binary forms; no formula in this development can produce a
string in those shapes, and they are left to `NaN`-free cases only.) -/
def jsStringToNumber (s : String) : Value :=
  let t := ((s.toList.dropWhile isJsWhitespace).reverse.dropWhile isJsWhitespace).reverse
  if t = [] then .num 0
  else
    let signNeg : Bool := t.headD ' ' = '-'
    let body := if t.headD ' ' = '-' || t.headD ' ' = '+' then t.tail else t
    if body = "Infinity".toList then (if signNeg then .neginf else .inf)
    else
      let intDigits := body.takeWhile isDigitChar
      let afterInt := body.drop intDigits.length
      let fracDigits : List Char :=
        match afterInt with
        | '.' :: fs => fs.takeWhile isDigitChar
        | _ => []
      let afterFrac : List Char :=
        match afterInt with
        | '.' :: fs => fs.drop fracDigits.length
        | _ => afterInt
      if intDigits = [] ∧ fracDigits = [] then .nan
      else if afterFrac ≠ [] then .nan
      else
        let mag : ℚ := mkRat (digitsVal intDigits) 1 +
          mkRat (digitsVal fracDigits) (10 ^ fracDigits.length)
        .num (if signNeg then -mag else mag)

/-- JavaScript `Number(v)` (`ToNumber`) on this engine's values; the result
is always one of `num` / `nan` / `inf` / `neginf`. -/
def jsToNumber : Value → Value
  | .num q => .num q
  | .nan => .nan
  | .inf => .inf
  | .neginf => .neginf
  | .str s => jsStringToNumber s
  | .bool b => .num (if b then 1 else 0)
  | .null => .num 0
  | .undefined => .nan
  | .hostFn _ => .nan

/-- IEEE negation on already-coerced numbers. -/
def numNeg : Value → Value
  | .num q => .num (-q)
  | .inf => .neginf
  | .neginf => .inf
  | _ => .nan

/-- IEEE addition on already-coerced numbers (exact in the rational case). -/
def numAdd : Value → Value → Value
  | .num a, .num b => .num (a + b)
  | .inf, .inf => .inf
  | .inf, .num _ => .inf
  | .num _, .inf => .inf
  | .neginf, .neginf => .neginf
  | .neginf, .num _ => .neginf
  | .num _, .neginf => .neginf
  | _, _ => .nan

/-- IEEE subtraction on already-coerced numbers. -/
def numSub (a b : Value) : Value := numAdd a (numNeg b)

/-- IEEE multiplication on already-coerced numbers. -/
def numMul : Value → Value → Value
  | .num a, .num b => .num (a * b)
  | .inf, .inf => .inf
  | .inf, .neginf => .neginf
  | .neginf, .inf => .neginf
  | .neginf, .neginf => .inf
  | .inf, .num q => if q.num = 0 then .nan else if 0 < q.num then .inf else .neginf
  | .num q, .inf => if q.num = 0 then .nan else if 0 < q.num then .inf else .neginf
  | .neginf, .num q => if q.num = 0 then .nan else if 0 < q.num then .neginf else .inf
  | .num q, .neginf => if q.num = 0 then .nan else if 0 < q.num then .neginf else .inf
  | _, _ => .nan

/-- IEEE division on already-coerced numbers.  The rational model has a
single zero, so division by zero takes the dividend's sign (JavaScript
distinguishes `±0`; no claim divides by zero). -/
def numDiv : Value → Value → Value
  | .num a, .num b =>
      if b = 0 then (if a.num = 0 then .nan else if 0 < a.num then .inf else .neginf)
      else .num (a / b)
  | .inf, .num q => if 0 ≤ q.num then .inf else .neginf
  | .neginf, .num q => if 0 ≤ q.num then .neginf else .inf
  | .num _, .inf => .num 0
  | .num _, .neginf => .num 0
  | _, _ => .nan

/-- JavaScript `a + b`: string concatenation when either operand is a
string, numeric addition after `ToNumber` otherwise. -/
def jsAdd (a b : Value) : Value :=
  match a, b with
  | .str sa, _ => .str (sa ++ jsToString b)
  | _, .str sb => .str (jsToString a ++ sb)
  | _, _ => numAdd (jsToNumber a) (jsToNumber b)

/-- JavaScript strict equality `===` on this engine's values (two fetches of
the same inherited host function yield the same object, so host functions
compare by name). -/
def jsStrictEq : Value → Value → Bool
  | .nan, _ => false
  | _, .nan => false
  | .num a, .num b => a == b
  | .inf, .inf => true
  | .neginf, .neginf => true
  | .str a, .str b => a == b
  | .bool a, .bool b => a == b
  | .null, .null => true
  | .undefined, .undefined => true
  | .hostFn a, .hostFn b => a == b
  | _, _ => false

/-- Three-way comparison used by the relational operators: lexicographic
when both operands are strings, numeric after `ToNumber` otherwise; `none`
when a `NaN` is involved (every relational operator is then false). -/
def jsCmp (a b : Value) : Option Ordering :=
  match a, b with
  | .str sa, .str sb =>
      some (if sa < sb then .lt else if sb < sa then .gt else .eq)
  | _, _ =>
      match jsToNumber a, jsToNumber b with
      | .nan, _ => none
      | _, .nan => none
      | .num x, .num y =>
          some (if x.blt y then .lt else if y.blt x then .gt else .eq)
      | .neginf, .neginf => some .eq
      | .inf, .inf => some .eq
      | .neginf, _ => some .lt
      | _, .neginf => some .gt
      | .inf, _ => some .gt
      | _, .inf => some .lt
      | _, _ => none

/-! ## Function registry (source: src/functions.ts)

A registry entry pairs an implementation with its description.  The
JavaScript backing store is a plain object; it is modelled as an association
list looked up by first match (object keys are unique, and registration
prepends the key it would overwrite, which is lookup-equivalent).  Both
`register` and `get` lower-case the name.

The builtin table below embeds the arithmetic/logic builtins and every
`__`-prefixed operator entry of the source's `builtinFunctions`.  The
remaining builtins (`upper`, `join`, `mean`, `median`, `mode`, `max`, `min`,
`isnan`, `lower`, `istext`, `contains`, `replace`, `not`, `concat`, `round`,
`clamp`, `avg`) are omitted from the embedding: no claim's formula mentions
them, and their presence is observable only by calling them. -/
structure FunctionDef where
  fn : List Value → Except String Value
  description : String

def Registry : Type := List (String × FunctionDef)

/-- JavaScript reads a missing argument as `undefined`. -/
def argD (vs : List Value) (i : Nat) : Value := vs.getD i .undefined

/-- `sum: (...args) => args.reduce((a, b) => Number(a) + Number(b), 0)`. -/
def sumFn (vs : List Value) : Value :=
  vs.foldl (fun acc v => numAdd (jsToNumber acc) (jsToNumber v)) (.num 0)

/-- `coalesce: (...args) => args.find(a => a != null)` (loose `!= null`
excludes exactly `null` and `undefined`; an exhausted `find` yields
`undefined`). -/
def coalesceFn : List Value → Value
  | [] => .undefined
  | v :: rest => if v = .null ∨ v = .undefined then coalesceFn rest else v

/-- Relational-operator result from the shared comparator. -/
def relResult (r : Option Ordering) (accept : Ordering → Bool) : Value :=
  match r with
  | none => .bool false
  | some o => .bool (accept o)

/-- The embedded portion of `builtinFunctions` (see the section comment). -/
def builtinFunctionsList : Registry :=
  [("sum", ⟨fun vs => .ok (sumFn vs), "Sums all arguments numerically"⟩),
   ("if", ⟨fun vs => .ok (if truthy (argD vs 0) then argD vs 1 else argD vs 2),
      "Returns the second argument if the condition is truthy, otherwise the third"⟩),
   ("coalesce", ⟨fun vs => .ok (coalesceFn vs), "Returns the first non-null/non-undefined value"⟩),
   ("isblank", ⟨fun vs => .ok (.bool (argD vs 0 = .str "" ∨ argD vs 0 = .null ∨ argD vs 0 = .undefined)),
      "Returns true if a value is an empty string or null/undefined"⟩),
   ("and", ⟨fun vs => .ok (.bool (vs.all truthy)), "Returns true if all arguments are truthy"⟩),
   ("or", ⟨fun vs => .ok (.bool (vs.any truthy)), "Returns true if any argument is truthy"⟩),
   ("iferr", ⟨fun vs => .ok (argD vs 0),
      "Returns the first argument, or the second if the first throws an error"⟩),
   ("abs", ⟨fun vs => .ok (match jsToNumber (argD vs 0) with
      | .num q => .num (if q.num < 0 then -q else q)
      | .inf => .inf
      | .neginf => .inf
      | _ => .nan), "Returns the absolute value of a number"⟩),
   ("__add", ⟨fun vs => .ok (jsAdd (argD vs 0) (argD vs 1)), "Addition operator"⟩),
   ("__sub", ⟨fun vs => .ok (numSub (jsToNumber (argD vs 0)) (jsToNumber (argD vs 1))),
      "Subtraction operator"⟩),
   ("__eq", ⟨fun vs => .ok (.bool (jsStrictEq (argD vs 0) (argD vs 1))), "Equality operator"⟩),
   ("__neq", ⟨fun vs => .ok (.bool (!jsStrictEq (argD vs 0) (argD vs 1))), "Not-equal operator"⟩),
   ("__gt", ⟨fun vs => .ok (relResult (jsCmp (argD vs 0) (argD vs 1)) (fun o => o = .gt)),
      "Greater-than operator"⟩),
   ("__gte", ⟨fun vs => .ok (relResult (jsCmp (argD vs 0) (argD vs 1)) (fun o => o = .gt ∨ o = .eq)),
      "Greater-than-or-equal operator"⟩),
   ("__lt", ⟨fun vs => .ok (relResult (jsCmp (argD vs 0) (argD vs 1)) (fun o => o = .lt)),
      "Less-than operator"⟩),
   ("__lte", ⟨fun vs => .ok (relResult (jsCmp (argD vs 0) (argD vs 1)) (fun o => o = .lt ∨ o = .eq)),
      "Less-than-or-equal operator"⟩),
   ("__mul", ⟨fun vs => .ok (numMul (jsToNumber (argD vs 0)) (jsToNumber (argD vs 1))),
      "Multiplication operator"⟩),
   ("__div", ⟨fun vs => .ok (numDiv (jsToNumber (argD vs 0)) (jsToNumber (argD vs 1))),
      "Division operator"⟩),
   ("__and", ⟨fun vs => .ok (if truthy (argD vs 0) then argD vs 1 else argD vs 0),
      "Logical AND operator"⟩),
   ("__or", ⟨fun vs => .ok (if truthy (argD vs 0) then argD vs 0 else argD vs 1),
      "Logical OR operator"⟩),
   ("__not", ⟨fun vs => .ok (.bool (!truthy (argD vs 0))), "Logical NOT operator"⟩),
   ("__neg", ⟨fun vs => .ok (numNeg (jsToNumber (argD vs 0))), "Unary negation operator"⟩)]

/-- `createFunctionRegistry()` as called by the evaluator constructor (no
extra initial functions). -/
def createFunctionRegistry : Registry := builtinFunctionsList

/-- Registry `get(name)`: `functions[name.toLowerCase()]?.fn` (an inherited
`Object.prototype` property has no `.fn`, so a miss is a miss). -/
def registryGet (R : Registry) (name : String) : Option (List Value → Except String Value) :=
  (List.lookup (jsToLower name) R).map (·.fn)

/-- Registry `register(name, fn, description)`: reject an empty name, then
store under the lower-cased name (the `typeof` guards of the source are
enforced by Lean's types). -/
def registryRegister (R : Registry) (name : String) (fn : List Value → Except String Value)
    (description : String) : Except String Registry :=
  if name = "" then .error "Function name must be a non-empty string"
  else .ok ((jsToLower name, ⟨fn, description⟩) :: R)

/-! ## Evaluator (source: `FormulaEvaluator` in src/index.ts) -/

/-- Evaluator state: the global variable context and the function registry. -/
structure FormulaEvaluator where
  context : List (String × Value)
  functions : Registry

/-- `new FormulaEvaluator(globalContext)`. -/
def FormulaEvaluator.new (globalContext : List (String × Value)) : FormulaEvaluator :=
  ⟨globalContext, createFunctionRegistry⟩

/-- `registerFunction(name, fn, description)` (chainable in the source;
here the updated evaluator is returned). -/
def FormulaEvaluator.registerFunction (ev : FormulaEvaluator) (name : String)
    (fn : List Value → Except String Value) (description : String) :
    Except String FormulaEvaluator := do
  let R ← registryRegister ev.functions name fn description
  .ok { ev with functions := R }

/-- The own property names of `Object.prototype` (excluding the accessor
`__proto__`, whose value is an object outside the `Value` grammar; no
parsed formula can reach it anyway, since identifiers must start with a
letter).  These are exactly the names the `in` operator finds on the merged
context object beyond the two contexts. -/
def objectPrototypeProps : List String :=
  ["constructor", "hasOwnProperty", "isPrototypeOf", "propertyIsEnumerable",
   "toLocaleString", "toString", "valueOf",
   "__defineGetter__", "__defineSetter__", "__lookupGetter__", "__lookupSetter__"]

/-- Variable lookup against
`ctx = Object.assign(Object.create(this.context), localContext)`.
`name in ctx` / `ctx[name]` walk the prototype chain: own properties (the
local context), then `this.context` (the global context), then
`Object.prototype` — whose methods are found as host function objects.
A case-sensitive exact-name lookup at each level. -/
def ctxLookup (globalCtx localCtx : List (String × Value)) (name : String) : Option Value :=
  match List.lookup name localCtx with
  | some v => some v
  | none =>
  match List.lookup name globalCtx with
  | some v => some v
  | none =>
    if name ∈ objectPrototypeProps then some (.hostFn name) else none

mutual

/-- The `run` closure of `evaluate`: literals evaluate to themselves;
variables are looked up in the merged context (throwing
`Variable "{name}" not found` when the `in` test fails); the call names
`if` and `iferr` are lazy special forms handled before any registry lookup;
any other call name is looked up in the registry (lower-cased, throwing
`Function "{name}" not found` on a miss), its arguments are evaluated
eagerly left to right, and the implementation is applied.  Out-of-range
`args[i]` accesses read as `undefined`, which evaluates to itself. -/
def run (R : Registry) (globalCtx localCtx : List (String × Value)) :
    AST → Except String Value
  | .num q => .ok (.num q)
  | .str s => .ok (.str s)
  | .bool b => .ok (.bool b)
  | .null => .ok .null
  | .var name =>
      match ctxLookup globalCtx localCtx name with
      | some v => .ok v
      | none => .error ("Variable \"" ++ name ++ "\" not found")
  | .call name args =>
      if name = "if" then
        match args with
        | [] => .ok .undefined
        | [c] => do
            let _ ← run R globalCtx localCtx c
            .ok .undefined
        | [c, a] => do
            let cond ← run R globalCtx localCtx c
            if truthy cond then run R globalCtx localCtx a else .ok .undefined
        | c :: a :: b :: _ => do
            let cond ← run R globalCtx localCtx c
            if truthy cond then run R globalCtx localCtx a else run R globalCtx localCtx b
      else if name = "iferr" then
        match args with
        | [] => .ok .undefined
        | [a] =>
            (match run R globalCtx localCtx a with
             | .ok v => .ok v
             | .error _ => .ok .undefined)
        | a :: b :: _ =>
            (match run R globalCtx localCtx a with
             | .ok v => .ok v
             | .error _ => run R globalCtx localCtx b)
      else
        match registryGet R name with
        | none => .error ("Function \"" ++ name ++ "\" not found")
        | some f => do
            let vs ← runArgs R globalCtx localCtx args
            f vs

/-- `node.args.map(run)`: evaluate arguments left to right, propagating the
first error. -/
def runArgs (R : Registry) (globalCtx localCtx : List (String × Value)) :
    List AST → Except String (List Value)
  | [] => .ok []
  | a :: rest => do
      let v ← run R globalCtx localCtx a
      let vs ← runArgs R globalCtx localCtx rest
      .ok (v :: vs)

end

/-- `evaluate(formula, localContext)`: tokenize, parse, merge contexts, run. -/
def FormulaEvaluator.evaluate (ev : FormulaEvaluator) (formula : String)
    (localContext : List (String × Value)) : Except String Value := do
  let ts ← tokenize formula
  let ast ← parse ts
  run ev.functions ev.context localContext ast

/-- An evaluator with an empty global context (`new FormulaEvaluator()`). -/
def defaultEvaluator : FormulaEvaluator := FormulaEvaluator.new []

mutual

/-- The `walk` closure of `getDependencies`, with the insertion-ordered
`Set` of collected names made explicit: a variable node inserts its name if
new; a call node walks its arguments in order; literals contribute
nothing. -/
def walk (deps : List String) : AST → List String
  | .var name => if name ∈ deps then deps else deps ++ [name]
  | .call _ args => walkList deps args
  | .num _ => deps
  | .str _ => deps
  | .bool _ => deps
  | .null => deps

/-- `node.args.forEach(walk)`. -/
def walkList (deps : List String) : List AST → List String
  | [] => deps
  | a :: rest => walkList (walk deps a) rest

end

/-- `getDependencies(formula)`: parse, walk, and return the collected names
in insertion order. -/
def FormulaEvaluator.getDependencies (ev : FormulaEvaluator) (formula : String) :
    Except String (List String) := do
  let ts ← tokenize formula
  let ast ← parse ts
  .ok (walk [] ast)

/-! ## Spec-side characterizations

These definitions follow the specification's wording (not the source) and
exist to be compared with the source-derived definitions above: the
depth-first list of variable occurrences and first-occurrence
deduplication, for the dependency-collector claim. -/
mutual

/-- Depth-first (pre-order) list of variable names referenced by a formula,
with multiplicity, in source order; literals and call/operator names
contribute nothing.  Spec-side definition. -/
def varNames : AST → List String
  | .var name => [name]
  | .call _ args => varNamesList args
  | .num _ => []
  | .str _ => []
  | .bool _ => []
  | .null => []

/-- Concatenation of `varNames` over a list of subtrees. -/
def varNamesList : List AST → List String
  | [] => []
  | a :: rest => varNames a ++ varNamesList rest

end

/-- Append a name if it is not already present. -/
def insertNew (acc : List String) (n : String) : List String :=
  if n ∈ acc then acc else acc ++ [n]

/-- First-occurrence-order deduplication.  Spec-side definition: keep the
first occurrence of each name, in order. -/
def firstDedup (l : List String) : List String := l.foldl insertNew []

/-! ## Operator-chain tokens

Canonical token sequences `atom (op atom)*` for the associativity claim:
number atoms interleaved with one fixed binary operator (offsets are
irrelevant to `parse` and set to 0). -/

/-- A number token with the given text. -/
def numTok (s : String) : Token := ⟨.number, s, 0, 0⟩

/-- An operator token with the given text. -/
def opTok (op : String) : Token := ⟨.operator, op, 0, 0⟩

/-- An identifier token with the given text. -/
def identTok (s : String) : Token := ⟨.identifier, s, 0, 0⟩

/-- A delimiter token with the given text. -/
def delimTok (s : String) : Token := ⟨.delimiter, s, 0, 0⟩

/-- The tail of an operator chain: `(op atom)*`, one `(operator, number)`
token pair per list entry. -/
def chainTail : List (String × String) → List Token
  | [] => []
  | (op, s) :: rest => opTok op :: numTok s :: chainTail rest

/-- A full operator chain of number atoms: `atom (op atom)*`. -/
def chainTokens (s0 : String) (pairs : List (String × String)) : List Token :=
  numTok s0 :: chainTail pairs

/-- Left-associative fold of a chain: each step wraps the accumulated node
as the left argument of the desugared operator call.  Spec-side definition
of "folds left-associatively". -/
def chainFold (start : AST) (pairs : List (String × String)) : AST :=
  pairs.foldl
    (fun acc pr => .call ((OP_MAP pr.1).getD "") [acc, .num (parseFloatQ pr.2)]) start

/-! ## All-whitespace inputs -/

/-- The JavaScript `\s` character set, elementwise (same set as
`isJsWhitespace`, as a concrete list for finite case analysis). -/
def jsWhitespaceChars : List Char :=
  [' ', '\t', '\n', '\x0B', '\x0C', '\r', ' ', ' ',
   ' ', ' ', ' ', ' ', ' ', ' ', ' ',
   ' ', ' ', ' ', ' ',
   ' ', ' ', ' ', ' ', '　', '﻿']

/-! ## Claim-specific fixtures -/

/-- A custom host function for the registration claims: doubles its first
argument. -/
def doubleFn : List Value → Except String Value :=
  fun vs => .ok (jsAdd (argD vs 0) (argD vs 0))

/-- The evaluator state after `registerFunction("MyFn", doubleFn)`: stored
under the lower-cased key. -/
def evMixed : FormulaEvaluator := ⟨[], ("myfn", ⟨doubleFn, ""⟩) :: createFunctionRegistry⟩

/-- An evaluator whose global context has the case-distinct variables `x`
and `X`. -/
def evCaseVars : FormulaEvaluator := FormulaEvaluator.new [("x", .num 1), ("X", .num 2)]

/-! ## Model sanity checks

Concrete behaviors of the embedded pipeline, each checked by evaluation. -/
example : tokenize "1 + 2" = .ok
    [⟨.number, "1", 0, 1⟩, ⟨.operator, "+", 2, 3⟩, ⟨.number, "2", 4, 5⟩] := by rfl

example : tokenize ".5" = .ok [⟨.number, ".5", 0, 2⟩] := by rfl

example : tokenize "5." = .error "Unexpected character at 1: ." := by rfl

example : tokenize "" = .ok [] := by rfl

example : tokenize "sum(a_1, \"hi\") >= 2" = .ok
    [⟨.identifier, "sum", 0, 3⟩, ⟨.delimiter, "(", 3, 4⟩, ⟨.identifier, "a_1", 4, 7⟩,
     ⟨.delimiter, ",", 7, 8⟩, ⟨.string, "hi", 9, 13⟩, ⟨.delimiter, ")", 13, 14⟩,
     ⟨.operator, ">=", 15, 17⟩, ⟨.number, "2", 18, 19⟩] := by rfl

example : parseFloatQ "10" = 10 := by decide

example : parseFloatQ ".5" = 1 / 2 := by decide

example : parseFloatQ "3.25" = 13 / 4 := by decide

example : parseFormula "1 + 2" = .ok (.call "__add" [.num 1, .num 2]) := by rfl

example : parseFormula "10 - 3 - 2" =
    .ok (.call "__sub" [.call "__sub" [.num 10, .num 3], .num 2]) := by rfl

example : parseFormula "1 + 2 * 3" =
    .ok (.call "__add" [.num 1, .call "__mul" [.num 2, .num 3]]) := by rfl

example : parseFormula "SUM(1,2)" = .ok (.call "sum" [.num 1, .num 2]) := by rfl

example : parseFormula "1 +" = .ok (.call "__add" [.num 1, .null]) := by rfl

example : parseFormula "(1 + 2" = .error "Missing closing parenthesis" := by rfl

example : parseFormula "1 + 2)" = .error "Unexpected token: )" := by rfl

example : parseFormula "" = .ok .null := by rfl

example : parseFormula "--5" = .ok (.call "__neg" [.call "__neg" [.num 5]]) := by rfl

example : parseFormula "if(true, 1, unknownVar)" =
    .ok (.call "if" [.bool true, .num 1, .var "unknownVar"]) := by rfl

example : defaultEvaluator.evaluate "1 + 2" [] = .ok (.num 3) := by rfl

example : defaultEvaluator.evaluate "10 - 3 - 2" [] = .ok (.num 5) := by rfl

example : defaultEvaluator.evaluate "24 / 4 / 2" [] = .ok (.num 3) := by rfl

example : defaultEvaluator.evaluate "if(true, 1, unknownVar)" [] = .ok (.num 1) := by rfl

example : defaultEvaluator.evaluate "iferr(unknownVar, 42)" [] = .ok (.num 42) := by rfl

example : defaultEvaluator.evaluate "iferr(7, 42)" [] = .ok (.num 7) := by rfl

example : defaultEvaluator.evaluate "SUM(1,2)" [] = .ok (.num 3) := by rfl

example : defaultEvaluator.evaluate "1 +" [] = .ok (.num 1) := by rfl

example : defaultEvaluator.evaluate "" [] = .ok .null := by rfl

example : defaultEvaluator.evaluate "toString" [] = .ok (.hostFn "toString") := by rfl

example : defaultEvaluator.evaluate "unknownVar" [] =
    .error "Variable \"unknownVar\" not found" := by rfl

example : defaultEvaluator.getDependencies "x + x" = .ok ["x"] := by rfl

example : defaultEvaluator.getDependencies "sum(a,b) + c" = .ok ["a", "b", "c"] := by rfl

example : defaultEvaluator.getDependencies "sum(1,2)" = .ok [] := by rfl

/-! ## Helper lemmas -/

/-- Everything `numFracPart` returns is a digit. -/
theorem numFracPart_digits (l : List Char) : ∀ x ∈ numFracPart l, isDigitChar x = true := by
  intro x hx
  unfold numFracPart at hx
  split at hx
  · exact List.mem_takeWhile_imp hx
  · simp at hx

mutual

/-- The source's `walk` folds `insertNew` over the depth-first variable
occurrence list. -/
theorem walk_eq_foldl (ast : AST) :
    ∀ deps, walk deps ast = (varNames ast).foldl insertNew deps :=
  match ast with
  | .var name => by intro deps; simp [walk, varNames, insertNew]
  | .call n args => by
      intro deps
      simpa [walk, varNames] using walkList_eq_foldl args deps
  | .num _ => by intro deps; simp [walk, varNames]
  | .str _ => by intro deps; simp [walk, varNames]
  | .bool _ => by intro deps; simp [walk, varNames]
  | .null => by intro deps; simp [walk, varNames]

/-- List version of `walk_eq_foldl`. -/
theorem walkList_eq_foldl (asts : List AST) :
    ∀ deps, walkList deps asts = (varNamesList asts).foldl insertNew deps :=
  match asts with
  | [] => by intro deps; simp [walkList, varNamesList]
  | a :: rest => by
      intro deps
      rw [walkList, walk_eq_foldl a deps, walkList_eq_foldl rest, varNamesList,
        List.foldl_append]

end

/-- Membership in an `insertNew` fold: exactly the seeds and the folded
names. -/
theorem mem_foldl_insertNew (l : List String) :
    ∀ acc n, n ∈ l.foldl insertNew acc ↔ n ∈ acc ∨ n ∈ l := by
  induction l with
  | nil => simp
  | cons a rest ih =>
      intro acc n
      simp only [List.foldl_cons, ih, insertNew, List.mem_cons]
      by_cases ha : a ∈ acc
      · simp only [ha, if_true]
        constructor
        · exact fun h => Or.elim h Or.inl (fun h => Or.inr (Or.inr h))
        · rintro (h | rfl | h)
          · exact Or.inl h
          · exact Or.inl ha
          · exact Or.inr h
      · simp only [ha, if_false, List.mem_append, List.mem_singleton]
        tauto

/-- An `insertNew` fold preserves freedom from duplicates. -/
theorem nodup_foldl_insertNew (l : List String) :
    ∀ acc, acc.Nodup → (l.foldl insertNew acc).Nodup := by
  induction l with
  | nil => simpa
  | cons a rest ih =>
      intro acc hacc
      simp only [List.foldl_cons]
      apply ih
      unfold insertNew
      by_cases ha : a ∈ acc
      · simpa [ha]
      · have hdisj : acc.Disjoint [a] := by
          intro x hx hxa
          rw [List.mem_singleton] at hxa
          subst hxa
          exact ha hx
        simpa [ha] using hacc.append (List.nodup_singleton a) hdisj

/-- Reduce a `do` bind over a successful `Except` step. -/
theorem exceptBind_ok {α β : Type} (a : α) (f : α → Except String β) :
    (Except.ok a >>= f) = f a := rfl

/-- Reduce a `do` bind over a failed `Except` step. -/
theorem exceptBind_err {α β : Type} (e : String) (f : α → Except String β) :
    ((Except.error e : Except String α) >>= f) = .error e := rfl

/-- `parseToken` on a number token yields its `parseFloat` value. -/
theorem parseTok_numTok (fuel : Nat) (s : String) (rest : List Token) :
    parseTok (fuel + 1) (numTok s :: rest) = .ok (.num (parseFloatQ s), rest) := by
  simp [parseTok, numTok]

/-- The precedence-climbing loop stops at an operator below the minimum
precedence: a right-hand-side recursive call at `prec + 1` does not consume
a following operator of precedence `prec`. -/
theorem parseOps_chainTail_stop (fuel minPrec : Nat) (node : AST) (p : Nat)
    (pairs : List (String × String))
    (hall : ∀ pr ∈ pairs, OP_PRECEDENCE pr.1 = some p) (hlt : p < minPrec) :
    parseOps (fuel + 1) minPrec node (chainTail pairs) = .ok (node, chainTail pairs) := by
  cases pairs with
  | nil => simp [chainTail, parseOps]
  | cons pr rest =>
      obtain ⟨op, s⟩ := pr
      have hp : OP_PRECEDENCE op = some p := hall (op, s) (by simp)
      simp [chainTail, parseOps, opTok, hp, Nat.not_le.mpr hlt]

/-- The precedence-climbing loop folds an equal-precedence chain
left-associatively: each iteration parses exactly one atom as the right
operand (the recursive call's minimum precedence `p + 1` rejects the next
`p`-precedence operator) and wraps the accumulated node on the left. -/
theorem parseOps_chain (p : Nat) (pairs : List (String × String))
    (hall : ∀ pr ∈ pairs, OP_PRECEDENCE pr.1 = some p) :
    ∀ fuel, 2 * pairs.length + 1 ≤ fuel → ∀ node,
      parseOps fuel 0 node (chainTail pairs) = .ok (chainFold node pairs, []) := by
  induction pairs with
  | nil =>
      intro fuel hfuel node
      obtain ⟨f, rfl⟩ : ∃ f, fuel = f + 1 := ⟨fuel - 1, by omega⟩
      simp [chainTail, parseOps, chainFold]
  | cons pr rest ih =>
      obtain ⟨op, s⟩ := pr
      have hp : OP_PRECEDENCE op = some p := hall (op, s) (by simp)
      have hrest : ∀ pr ∈ rest, OP_PRECEDENCE pr.1 = some p :=
        fun pr hpr => hall pr (by simp [hpr])
      intro fuel hfuel node
      obtain ⟨h, rfl⟩ : ∃ h, fuel = h + 3 := ⟨fuel - 3, by simp at hfuel; omega⟩
      rw [chainTail]
      show parseOps ((h + 2) + 1) 0 node (opTok op :: numTok s :: chainTail rest) = _
      rw [parseOps]
      simp only [opTok, hp, Nat.zero_le, if_true, reduceIte]
      rw [show h + 2 = (h + 1) + 1 from rfl, parseExpr, parseTok_numTok]
      simp only [exceptBind_ok]
      rw [parseOps_chainTail_stop h (p + 1) _ p rest hrest (Nat.lt_succ_self p)]
      simp only [exceptBind_ok]
      rw [ih hrest ((h + 1) + 1) (by simp at hfuel ⊢; omega)]
      rfl

/-- `parseExpression(0)` on an equal-operator chain of number atoms returns
the left-associated fold and consumes every token. -/
theorem parseExpr_chain (p : Nat) (s0 : String) (pairs : List (String × String))
    (hall : ∀ pr ∈ pairs, OP_PRECEDENCE pr.1 = some p) :
    ∀ fuel, 2 * pairs.length + 2 ≤ fuel →
      parseExpr fuel 0 (chainTokens s0 pairs) =
        .ok (chainFold (.num (parseFloatQ s0)) pairs, []) := by
  intro fuel hfuel
  obtain ⟨f, rfl⟩ : ∃ f, fuel = f + 2 := ⟨fuel - 2, by omega⟩
  rw [chainTokens, show f + 2 = (f + 1) + 1 from rfl, parseExpr, parseTok_numTok]
  simp only [exceptBind_ok]
  rw [parseOps_chain p pairs hall (f + 1) (by omega)]

/-- On a whitespace character every rule before the whitespace rule fails,
and the whitespace rule swallows the rest of an all-whitespace input. -/
theorem firstRuleMatch_all_ws (c : Char) (rest : List Char)
    (hc : c ∈ jsWhitespaceChars) (hrest : ∀ d ∈ rest, d ∈ jsWhitespaceChars) :
    firstRuleMatch (c :: rest) =
      some (.whitespace, String.mk (c :: rest), rest.length + 1) := by
  have hquote : ¬ c = '\"' :=
    (by decide : ∀ d ∈ jsWhitespaceChars, ¬ d = '\"') c hc
  have hdigit : isDigitChar c = false :=
    (by decide : ∀ d ∈ jsWhitespaceChars, isDigitChar d = false) c hc
  have hdot : ¬ c = '.' :=
    (by decide : ∀ d ∈ jsWhitespaceChars, ¬ d = '.') c hc
  have hletter : isAsciiLetter c = false :=
    (by decide : ∀ d ∈ jsWhitespaceChars, isAsciiLetter d = false) c hc
  have hbang : ¬ c = '!' :=
    (by decide : ∀ d ∈ jsWhitespaceChars, ¬ d = '!') c hc
  have hgtc : ¬ c = '>' :=
    (by decide : ∀ d ∈ jsWhitespaceChars, ¬ d = '>') c hc
  have hltc : ¬ c = '<' :=
    (by decide : ∀ d ∈ jsWhitespaceChars, ¬ d = '<') c hc
  have hsingle : ¬ c ∈ singleOpChars :=
    (by decide : ∀ d ∈ jsWhitespaceChars, ¬ d ∈ singleOpChars) c hc
  have hdelims : (c = '(' || c = ')' || c = ',') = false := by
    have := (by decide :
      ∀ d ∈ jsWhitespaceChars, (d = '(' || d = ')' || d = ',') = false) c hc
    exact this
  have hstring : matchTokString (c :: rest) = none := by
    simp [matchTokString, hquote]
  have hnumber : matchTokNumber (c :: rest) = none := by
    unfold matchTokNumber
    rw [List.takeWhile_cons_of_neg (by simp [hdigit])]
    simp [numFracPart, hdot]
  have hident : matchTokIdentifier (c :: rest) = none := by
    simp [matchTokIdentifier, hletter]
  have hop : matchTokOperator (c :: rest) = none := by
    simp [matchTokOperator, hbang, hgtc, hltc, hsingle]
  have hdelim : matchTokDelimiter (c :: rest) = none := by
    simp only [matchTokDelimiter]
    rw [hdelims]
    rfl
  have hws : matchTokWhitespace (c :: rest) = some (String.mk (c :: rest), rest.length + 1) := by
    have hall : ∀ d ∈ c :: rest, isJsWhitespace d = true := by
      intro d hd
      have hmem : d ∈ jsWhitespaceChars := by
        cases hd with
        | head => exact hc
        | tail _ h => exact hrest _ h
      exact (by decide : ∀ d ∈ jsWhitespaceChars, isJsWhitespace d = true) d hmem
    have htake : (c :: rest).takeWhile isJsWhitespace = c :: rest :=
      List.takeWhile_eq_self_iff.mpr hall
    simp [matchTokWhitespace, htake]
  unfold firstRuleMatch
  rw [hstring, hnumber, hident, hop, hdelim, hws]

/-- `tokenize` of an all-whitespace string (including the empty string) is
the empty token list. -/
theorem tokenize_all_ws (cs : List Char) (h : ∀ c ∈ cs, c ∈ jsWhitespaceChars) :
    tokenize (String.mk cs) = .ok [] := by
  cases cs with
  | nil => rfl
  | cons c rest =>
      show tokenizeAux (rest.length + 1 + 1) 0 (c :: rest) = .ok []
      rw [tokenizeAux]
      rw [firstRuleMatch_all_ws c rest (h c (by simp)) (fun d hd => h d (by simp [hd]))]
      simp only [if_pos rfl, reduceIte]
      rw [show (c :: rest).drop (rest.length + 1) = [] from by
        simpa using List.drop_length (l := c :: rest)]
      rfl

/-- The chain tail contributes two tokens per atom. -/
theorem chainTail_length (pairs : List (String × String)) :
    (chainTail pairs).length = 2 * pairs.length := by
  induction pairs with
  | nil => rfl
  | cons pr rest ih => simp [chainTail, ih]; omega

/-- `parseToken` on `identifier(` `)` builds a `Call` with the lower-cased
identifier text (for identifier texts other than the boolean literals,
which are intercepted earlier). -/
theorem parseTok_call_lower (fuel : Nat) (s : String) (rest : List Token)
    (h1 : ¬ s = "true") (h2 : ¬ s = "false") :
    parseTok (fuel + 2) (identTok s :: delimTok "(" :: delimTok ")" :: rest) =
      .ok (.call (jsToLower s) [], rest) := by
  rw [parseTok]
  simp only [identTok, delimTok]
  simp [h1, h2, parseArgs, exceptBind_ok]

/-! ## The claims -/

/-- C1: for every `if(c, a, b)` call node the evaluator runs the condition
and then runs only the branch selected by truthiness — the equation shows
the result depends only on the selected branch, so an error in the unchosen
branch never surfaces; concretely, `evaluate('if(true, 1, unknownVar)')`
returns `1` even though evaluating `unknownVar` alone raises the
variable-not-found error. -/
theorem claim_C1 :
    (∀ (R : Registry) (g l : List (String × Value)) (c a b : AST),
        run R g l (.call "if" [c, a, b]) =
          (run R g l c) >>= (fun v => if truthy v then run R g l a else run R g l b))
    ∧ defaultEvaluator.evaluate "if(true, 1, unknownVar)" [] = .ok (.num 1)
    ∧ defaultEvaluator.evaluate "unknownVar" [] =
        .error "Variable \"unknownVar\" not found" := by
  refine ⟨fun R g l c a b => ?_, by rfl, by rfl⟩
  rw [run]
  cases run R g l c <;> rfl

/-- C3: for every `iferr(a, b)` call node the evaluator returns `a`'s value
when running `a` succeeds (the result does not depend on `b`), and runs and
returns `b` when running `a` fails with any error; concretely,
`evaluate('iferr(unknownVar, 42)') = 42` and `evaluate('iferr(7, 42)') = 7`. -/
theorem claim_C3 :
    (∀ (R : Registry) (g l : List (String × Value)) (a b : AST),
        run R g l (.call "iferr" [a, b]) =
          match run R g l a with
          | .ok v => .ok v
          | .error _ => run R g l b)
    ∧ defaultEvaluator.evaluate "iferr(unknownVar, 42)" [] = .ok (.num 42)
    ∧ defaultEvaluator.evaluate "iferr(7, 42)" [] = .ok (.num 7) := by
  refine ⟨fun R g l a b => ?_, by rfl, by rfl⟩
  rw [run]
  simp

/-- C7: `getDependencies` returns exactly the variable names of the formula
(function/operator names and literals are never collected), in depth-first
first-occurrence order with duplicates removed — `walk` equals
first-occurrence deduplication of the pre-order variable-occurrence list —
with the three documented examples. -/
theorem claim_C7 :
    (∀ ast, walk [] ast = firstDedup (varNames ast))
    ∧ (∀ ast n, n ∈ walk [] ast ↔ n ∈ varNames ast)
    ∧ (∀ ast, (walk [] ast).Nodup)
    ∧ defaultEvaluator.getDependencies "x + x" = .ok ["x"]
    ∧ defaultEvaluator.getDependencies "sum(a,b) + c" = .ok ["a", "b", "c"]
    ∧ defaultEvaluator.getDependencies "sum(1,2)" = .ok [] := by
  refine ⟨fun ast => ?_, fun ast n => ?_, fun ast => ?_, by rfl, by rfl, by rfl⟩
  · rw [walk_eq_foldl]; rfl
  · rw [walk_eq_foldl]
    simpa using mem_foldl_insertNew (varNames ast) [] n
  · rw [walk_eq_foldl]
    exact nodup_foldl_insertNew _ [] (by simp)

/-- C8: `parse` consumes the entire token sequence: a missing `)` raises
exactly `Missing closing parenthesis`, a trailing unconsumed token raises
exactly `Unexpected token: {text}`, and a successful `parse` implies the
expression parser consumed every token (no silent partial parse). -/
theorem claim_C8 :
    defaultEvaluator.evaluate "(1 + 2" [] = .error "Missing closing parenthesis"
    ∧ defaultEvaluator.evaluate "1 + 2)" [] = .error "Unexpected token: )"
    ∧ (∀ (ts : List Token) (node : AST) (t : Token) (rest : List Token),
        parseExpr (parseFuel ts) 0 ts = .ok (node, t :: rest) →
        parse ts = .error ("Unexpected token: " ++ t.value))
    ∧ (∀ (ts : List Token) (ast : AST),
        parse ts = .ok ast → parseExpr (parseFuel ts) 0 ts = .ok (ast, [])) := by
  refine ⟨by rfl, by rfl, ?_, ?_⟩
  · intro ts node t rest h
    simp [parse, h, exceptBind_ok]
  · intro ts ast h
    unfold parse at h
    cases hq : parseExpr (parseFuel ts) 0 ts with
    | error e => rw [hq] at h; simp [exceptBind_err] at h
    | ok pr =>
        obtain ⟨node, rest⟩ := pr
        rw [hq] at h
        cases rest with
        | nil =>
            simp only [exceptBind_ok] at h
            injection h with h'
            rw [h']
        | cons t rest' => simp [exceptBind_ok] at h

/-- C8 witness: the no-partial-parse rule applied to the concrete token
sequence of `1 + 2)`: the expression parser stops before the trailing `)`
and `parse` surfaces it. -/
theorem claim_C8_witness :
    parse [⟨.number, "1", 0, 1⟩, ⟨.operator, "+", 2, 3⟩, ⟨.number, "2", 4, 5⟩,
        ⟨.delimiter, ")", 5, 6⟩] = .error "Unexpected token: )"
    ∧ parseExpr (parseFuel [⟨.number, "1", 0, 1⟩, ⟨.operator, "+", 2, 3⟩,
        ⟨.number, "2", 4, 5⟩, ⟨.delimiter, ")", 5, 6⟩]) 0
        [⟨.number, "1", 0, 1⟩, ⟨.operator, "+", 2, 3⟩, ⟨.number, "2", 4, 5⟩,
          ⟨.delimiter, ")", 5, 6⟩] =
        .ok (.call "__add" [.num 1, .num 2], [⟨.delimiter, ")", 5, 6⟩]) := by
  refine ⟨?_, by rfl⟩
  exact claim_C8.2.2.1
    [⟨.number, "1", 0, 1⟩, ⟨.operator, "+", 2, 3⟩, ⟨.number, "2", 4, 5⟩,
      ⟨.delimiter, ")", 5, 6⟩]
    (.call "__add" [.num 1, .num 2]) ⟨.delimiter, ")", 5, 6⟩ [] (by rfl)

/-- C9 counterexample: `tokenize('(1 +')` is a token sequence ending in the
binary operator `+`, yet `parse` raises `Missing closing parenthesis` — so
"for every token sequence ending in a binary operator, parse raises no
error" is false as stated. -/
theorem claim_C9_counterexample :
    tokenize "(1 +" = .ok
      [⟨.delimiter, "(", 0, 1⟩, ⟨.number, "1", 1, 2⟩, ⟨.operator, "+", 3, 4⟩]
    ∧ (OP_PRECEDENCE "+").isSome = true
    ∧ defaultEvaluator.evaluate "(1 +" [] = .error "Missing closing parenthesis" := by
  exact ⟨by rfl, by rfl, by rfl⟩

/-- C9 (amended): at top level a trailing binary operator does not raise an
error: `parseToken` on exhausted input yields the `null` AST node, so
`parse(tokenize('1 +'))` succeeds with `Call('__add', [1, null])` and
`evaluate('1 +')` completes by invoking the registered `__add`
implementation with `null` as its second argument (inside an unclosed
parenthesized or argument context the parser still raises
`Missing closing parenthesis`). -/
theorem claim_C9_amended :
    (∀ fuel, parseTok (fuel + 1) [] = .ok (.null, []))
    ∧ parseFormula "1 +" = .ok (.call "__add" [.num 1, .null])
    ∧ (∃ f, registryGet createFunctionRegistry "__add" = some f
        ∧ f [.num 1, .null] = .ok (.num 1)
        ∧ defaultEvaluator.evaluate "1 +" [] = f [.num 1, .null]) := by
  exact ⟨fun fuel => by rw [parseTok], by rfl, ⟨_, by rfl, by rfl, by rfl⟩⟩

/-- C10: the empty string and all-whitespace strings tokenize to the empty
token sequence, `parse` of no tokens returns the `null` AST node without
error, and `evaluate` returns `null` (and `getDependencies` returns the
empty list) — no lexical, syntax, or name error is raised. -/
theorem claim_C10 :
    tokenize "" = .ok []
    ∧ (∀ cs : List Char, (∀ c ∈ cs, c ∈ jsWhitespaceChars) →
        tokenize (String.mk cs) = .ok [])
    ∧ parse [] = .ok .null
    ∧ (∀ cs : List Char, (∀ c ∈ cs, c ∈ jsWhitespaceChars) →
        defaultEvaluator.evaluate (String.mk cs) [] = .ok .null)
    ∧ defaultEvaluator.evaluate "" [] = .ok .null
    ∧ defaultEvaluator.evaluate "   " [] = .ok .null
    ∧ defaultEvaluator.getDependencies "" = .ok [] := by
  refine ⟨by rfl, tokenize_all_ws, by rfl, fun cs h => ?_, by rfl, by rfl, by rfl⟩
  unfold FormulaEvaluator.evaluate
  rw [tokenize_all_ws cs h]
  rfl

/-- C10 witness: the all-whitespace facts instantiated at the three-space
input. -/
theorem claim_C10_witness :
    tokenize (String.mk [' ', ' ', ' ']) = .ok []
    ∧ defaultEvaluator.evaluate (String.mk [' ', ' ', ' ']) [] = .ok .null :=
  ⟨claim_C10.2.1 [' ', ' ', ' '] (by decide),
   claim_C10.2.2.2.1 [' ', ' ', ' '] (by decide)⟩

/-- C2: for every chain of equal-precedence binary operators (the
operators in the chain may differ as long as their precedence is equal)
over number atoms, `parse` folds left-associatively: the right-hand side of
each fold step is parsed with minimum precedence one higher than the
operator's, so the recursive call stops before the next equal-precedence
operator; hence `evaluate('10 - 3 - 2') = 5` (not 9) and
`evaluate('24 / 4 / 2') = 3` (not 12). -/
theorem claim_C2 :
    (∀ (p : Nat) (pairs : List (String × String)),
      (∀ pr ∈ pairs, OP_PRECEDENCE pr.1 = some p) →
      ∀ (s0 : String),
        parse (chainTokens s0 pairs) =
          .ok (chainFold (.num (parseFloatQ s0)) pairs))
    ∧ parseFormula "10 - 3 - 2" =
        .ok (.call "__sub" [.call "__sub" [.num 10, .num 3], .num 2])
    ∧ defaultEvaluator.evaluate "10 - 3 - 2" [] = .ok (.num 5)
    ∧ defaultEvaluator.evaluate "24 / 4 / 2" [] = .ok (.num 3) := by
  refine ⟨?_, by rfl, by rfl, by rfl⟩
  intro p pairs hall s0
  have hlen : 2 * pairs.length + 2 ≤ parseFuel (chainTokens s0 pairs) := by
    simp [parseFuel, chainTokens, chainTail_length]
    omega
  unfold parse
  rw [parseExpr_chain p s0 pairs hall _ hlen]
  rfl

/-- C2 witness: the chain theorem instantiated at the mixed equal-precedence
chain `10 - 3 + 2`. -/
theorem claim_C2_witness :
    parse (chainTokens "10" [("-", "3"), ("+", "2")]) =
      .ok (.call "__add" [.call "__sub" [.num 10, .num 3], .num 2]) := by
  have h := claim_C2.1 5 [("-", "3"), ("+", "2")] (by decide) "10"
  rw [h]
  rfl

/-- C4 counterexample: with both contexts empty, the name `toString` is in
neither context, yet `evaluate('toString')` succeeds with the host function
inherited from `Object.prototype` instead of failing with the documented
`Variable "toString" not found` error — the merged context object
`Object.assign(Object.create(global), local)` answers `in` through its
prototype chain. -/
theorem claim_C4_counterexample :
    defaultEvaluator.context = []
    ∧ defaultEvaluator.evaluate "toString" [] = .ok (.hostFn "toString")
    ∧ defaultEvaluator.evaluate "toString" [] ≠
        .error "Variable \"toString\" not found" := by
  refine ⟨by rfl, by rfl, ?_⟩
  intro h
  rw [show defaultEvaluator.evaluate "toString" [] = .ok (.hostFn "toString") from rfl] at h
  exact Except.noConfusion h

/-- C4 (amended): variable lookup reads the merged context with local keys
overriding same-named global keys; a name absent from both contexts that is
an `Object.prototype` property name (e.g. `toString`) is found on the
prototype chain and returns the inherited host function; every other absent
name fails with exactly `Variable "{name}" not found`; with global `{x:1}`,
`evaluate('x', {x:99}) = 99`; evaluation never mutates the evaluator state
(all definitions are pure: `evaluate` returns only a value). -/
theorem claim_C4_amended :
    (∀ (R : Registry) (g l : List (String × Value)) (name : String) (v : Value),
        List.lookup name l = some v → run R g l (.var name) = .ok v)
    ∧ (∀ (R : Registry) (g l : List (String × Value)) (name : String) (v : Value),
        List.lookup name l = none → List.lookup name g = some v →
        run R g l (.var name) = .ok v)
    ∧ (∀ (R : Registry) (g l : List (String × Value)) (name : String),
        List.lookup name l = none → List.lookup name g = none →
        name ∉ objectPrototypeProps →
        run R g l (.var name) = .error ("Variable \"" ++ name ++ "\" not found"))
    ∧ (∀ (R : Registry) (g l : List (String × Value)) (name : String),
        List.lookup name l = none → List.lookup name g = none →
        name ∈ objectPrototypeProps →
        run R g l (.var name) = .ok (.hostFn name))
    ∧ (FormulaEvaluator.new [("x", .num 1)]).evaluate "x" [("x", .num 99)] = .ok (.num 99)
    ∧ (FormulaEvaluator.new [("x", .num 1)]).evaluate "x" [] = .ok (.num 1) := by
  refine ⟨?_, ?_, ?_, ?_, by rfl, by rfl⟩
  · intro R g l name v hl
    rw [run, ctxLookup, hl]
  · intro R g l name v hl hg
    rw [run, ctxLookup, hl, hg]
  · intro R g l name hl hg hp
    rw [run, ctxLookup, hl, hg, if_neg hp]
  · intro R g l name hl hg hp
    rw [run, ctxLookup, hl, hg, if_pos hp]

/-- C4 witness: the amended lookup rules instantiated at concrete inputs —
local override, plain-miss error, and prototype hit. -/
theorem claim_C4_amended_witness :
    run createFunctionRegistry [("x", .num 1)] [("x", .num 99)] (.var "x") = .ok (.num 99)
    ∧ run createFunctionRegistry [] [] (.var "y") =
        .error ("Variable \"" ++ "y" ++ "\" not found")
    ∧ run createFunctionRegistry [] [] (.var "toString") = .ok (.hostFn "toString") :=
  ⟨claim_C4_amended.1 createFunctionRegistry [("x", .num 1)] [("x", .num 99)] "x"
      (.num 99) (by rfl),
   claim_C4_amended.2.2.1 createFunctionRegistry [] [] "y" (by rfl) (by rfl) (by decide),
   claim_C4_amended.2.2.2.1 createFunctionRegistry [] [] "toString" (by rfl) (by rfl)
      (by decide)⟩

/-- C5: the Number rule requires a mandatory trailing digit run — every
match of the rule ends in a digit — so `tokenize('.5')` is a single Number
token while `tokenize('5.')` lexes `5` and then fails with exactly
`Unexpected character at 1: .`. -/
theorem claim_C5 :
    tokenize ".5" = .ok [⟨.number, ".5", 0, 2⟩]
    ∧ tokenize "5." = .error "Unexpected character at 1: ."
    ∧ (∀ (cs : List Char) (v : String) (len : Nat),
        matchTokNumber cs = some (v, len) →
        (v.toList.getLast?.map isDigitChar) = some true) := by
  refine ⟨by rfl, by rfl, ?_⟩
  intro cs v len h
  unfold matchTokNumber at h
  dsimp only at h
  split at h
  · next hfrac =>
      injection h with h'
      injection h' with hv _
      subst hv
      obtain hnil | ⟨l', a, hconcat⟩ :=
        (numFracPart (cs.drop (cs.takeWhile isDigitChar).length)).eq_nil_or_concat
      · exact absurd hnil hfrac
      · have hdg : isDigitChar a = true :=
          numFracPart_digits _ a (by rw [hconcat]; simp)
        show (((cs.takeWhile isDigitChar ++
            '.' :: numFracPart (cs.drop (cs.takeWhile isDigitChar).length)).getLast?).map
              isDigitChar) = some true
        rw [hconcat, List.concat_eq_append,
          show cs.takeWhile isDigitChar ++ '.' :: (l' ++ [a]) =
            (cs.takeWhile isDigitChar ++ '.' :: l') ++ [a] from by simp,
          List.getLast?_concat]
        simp [hdg]
  · split at h
    · next hint =>
        injection h with h'
        injection h' with hv _
        subst hv
        obtain hnil | ⟨l', a, hconcat⟩ := (cs.takeWhile isDigitChar).eq_nil_or_concat
        · exact absurd hnil hint
        · have hdg : isDigitChar a = true :=
            List.mem_takeWhile_imp (by rw [hconcat]; simp)
        
          show (((cs.takeWhile isDigitChar).getLast?).map isDigitChar) = some true
          rw [hconcat, List.concat_eq_append, List.getLast?_concat]
          simp [hdg]
    · exact absurd h (by simp)

/-- C5 witness: the trailing-digit property instantiated at the `.5`
match. -/
theorem claim_C5_witness :
    ((String.toList ".5").getLast?.map isDigitChar) = some true ∧
      matchTokNumber (String.toList ".5") = some (".5", 2) :=
  ⟨by
    have h := claim_C5.2.2 (String.toList ".5") ".5" 2 (by rfl)
    simpa using h,
   by rfl⟩

/-- C6: function-call names are resolved case-insensitively — the registry
resolves any two names with the same lower-casing identically, a function
registered under a mixed-case name is found under any casing, and the
parser lower-cases call names at `Call` construction — while variable names
are case-sensitive (`x` and `X` are distinct); concretely
`evaluate('SUM(1,2)') = evaluate('sum(1,2)') = 3`. -/
theorem claim_C6 :
    (∀ (R : Registry) (n m : String), jsToLower n = jsToLower m →
        registryGet R n = registryGet R m)
    ∧ (∀ (ev : FormulaEvaluator) (name : String) (fn : List Value → Except String Value)
          (d : String) (ev' : FormulaEvaluator),
        ev.registerFunction name fn d = .ok ev' →
        ∀ callName, jsToLower callName = jsToLower name →
          registryGet ev'.functions callName = some fn)
    ∧ (∀ s : String, ¬ s = "true" → ¬ s = "false" →
        parse [identTok s, delimTok "(", delimTok ")"] = .ok (.call (jsToLower s) []))
    ∧ defaultEvaluator.evaluate "SUM(1,2)" [] = defaultEvaluator.evaluate "sum(1,2)" []
    ∧ defaultEvaluator.evaluate "SUM(1,2)" [] = .ok (.num 3)
    ∧ defaultEvaluator.registerFunction "MyFn" doubleFn "" = .ok evMixed
    ∧ evMixed.evaluate "MYFN(21)" [] = .ok (.num 42)
    ∧ evMixed.evaluate "MyFn(21)" [] = .ok (.num 42)
    ∧ evCaseVars.evaluate "x" [] = .ok (.num 1)
    ∧ evCaseVars.evaluate "X" [] = .ok (.num 2) := by
  refine ⟨?_, ?_, ?_, by rfl, by rfl, by rfl, by rfl, by rfl, by rfl, by rfl⟩
  · intro R n m h
    rw [registryGet, registryGet, h]
  · intro ev name fn d ev' hreg callName hcall
    unfold FormulaEvaluator.registerFunction registryRegister at hreg
    by_cases hname : name = ""
    · rw [if_pos hname] at hreg
      exact absurd hreg (by simp [exceptBind_err])
    · rw [if_neg hname] at hreg
      simp only [exceptBind_ok] at hreg
      injection hreg with hreg
      rw [← hreg]
      simp [registryGet, hcall, List.lookup]
  · intro s h1 h2
    unfold parse
    rw [show parseFuel [identTok s, delimTok "(", delimTok ")"] = 15 + 1 from rfl,
      parseExpr,
      show (15 : Nat) = 13 + 2 from rfl,
      parseTok_call_lower 13 s [] h1 h2]
    simp only [exceptBind_ok]
    rw [show (13 : Nat) + 2 = 14 + 1 from rfl, parseOps]
    rfl

/-- C6 witness: registry case-insensitivity, registration under a
mixed-case name, and parser lower-casing at concrete names. -/
theorem claim_C6_witness :
    registryGet createFunctionRegistry "SUM" = registryGet createFunctionRegistry "sum"
    ∧ registryGet evMixed.functions "MYFN" = some doubleFn
    ∧ parse [identTok "Sum", delimTok "(", delimTok ")"] = .ok (.call "sum" []) := by
  refine ⟨claim_C6.1 createFunctionRegistry "SUM" "sum" (by rfl), ?_, ?_⟩
  · exact claim_C6.2.1 defaultEvaluator "MyFn" doubleFn "" evMixed (by rfl) "MYFN" (by rfl)
  · have h := claim_C6.2.2.1 "Sum" (by decide) (by decide)
    rw [h]
    rfl

end FormulaEval
